import Mathlib

/-!
Verification development for the macro-expansion engine of
crates/hir-expand/src/db.rs: a shallow embedding of its data model and
queries, plus theorems about the behaviour the specification claims.

External collaborators (source parsing, AST-id resolution, the
macro-by-example engine, the limit and tt crates, the known built-in
expanders) live outside the analysed file; they are modelled from the
specification's interface section and carried as data or as function
fields of the database structure.
-/

namespace HirExpand

/-- Span anchor: owning file plus the stable per-file AST id
(base_db::span::SpanAnchor). -/
structure SpanAnchor where
  file_id : Nat
  ast_id : Nat
deriving DecidableEq

/-- Span attached to every produced token: byte range, anchor, hygiene
context (base_db::span::SpanData). -/
structure SpanData where
  range : Nat × Nat
  anchor : SpanAnchor
  ctx : Nat
deriving DecidableEq

/-- Delimiter kind of a token tree; `unspecified` models
tt::Delimiter::UNSPECIFIED (the invisible delimiter). -/
inductive DelimiterKind where
  | parenthesis
  | bracket
  | brace
  | unspecified
deriving DecidableEq

/-- tt::TokenTree, modelled from the spec (the tt crate is outside the
analysed file): a leaf token with its text and span, or a nested
delimited subtree. -/
inductive TokenTree where
  | leaf (text : String) (span : SpanData)
  | subtree (delimiter : DelimiterKind) (token_trees : List TokenTree)

mutual

/-- Decidable equality of token trees (the deriving handler does not
support the nested list). -/
def TokenTree.deq : (a b : TokenTree) → Decidable (a = b)
  | .leaf t s, .leaf t' s' =>
    if h1 : t = t' then
      if h2 : s = s' then isTrue (by rw [h1, h2])
      else isFalse (fun h => by cases h; exact h2 rfl)
    else isFalse (fun h => by cases h; exact h1 rfl)
  | .leaf _ _, .subtree _ _ => isFalse (fun h => by cases h)
  | .subtree _ _, .leaf _ _ => isFalse (fun h => by cases h)
  | .subtree d ts, .subtree d' ts' =>
    if h1 : d = d' then
      match tokenTreeListDeq ts ts' with
      | isTrue h2 => isTrue (by rw [h1, h2])
      | isFalse h2 => isFalse (fun h => by cases h; exact h2 rfl)
    else isFalse (fun h => by cases h; exact h1 rfl)

/-- Decidable equality of token-tree lists. -/
def tokenTreeListDeq : (a b : List TokenTree) → Decidable (a = b)
  | [], [] => isTrue rfl
  | [], _ :: _ => isFalse (fun h => by cases h)
  | _ :: _, [] => isFalse (fun h => by cases h)
  | x :: xs, y :: ys =>
    match TokenTree.deq x y with
    | isTrue hx =>
      match tokenTreeListDeq xs ys with
      | isTrue hxs => isTrue (by rw [hx, hxs])
      | isFalse hxs => isFalse (fun h => by cases h; exact hxs rfl)
    | isFalse hx => isFalse (fun h => by cases h; exact hx rfl)

end

instance : DecidableEq TokenTree := TokenTree.deq

instance : DecidableEq (List TokenTree) := tokenTreeListDeq

/-- tt::Subtree: a delimiter plus the ordered child token trees. -/
structure Subtree where
  delimiter : DelimiterKind
  token_trees : List TokenTree
deriving DecidableEq

/-- tt::Subtree::empty(): unspecified delimiter, no tokens. -/
def Subtree.empty : Subtree := ⟨DelimiterKind.unspecified, []⟩

mutual

/-- Number of tokens in one token tree: a leaf counts one, a nested
subtree counts itself plus its children. Modelled from the spec: the
token-volume limit bounds "the number of tokens a single expansion may
produce" (tt::Subtree::count is outside the analysed file). -/
def TokenTree.count : TokenTree → Nat
  | .leaf _ _ => 1
  | .subtree _ ts => 1 + countTokenTrees ts

/-- Token count of a list of token trees. -/
def countTokenTrees : List TokenTree → Nat
  | [] => 0
  | t :: ts => TokenTree.count t + countTokenTrees ts

end

/-- tt::Subtree::count for the top-level subtree. -/
def Subtree.count (s : Subtree) : Nat := countTokenTrees s.token_trees

/-- ExpandError; only the `other` (message) constructor is exercised by
db.rs. -/
inductive ExpandError where
  | other (msg : String)
deriving DecidableEq

/-- ExpandResult: a value paired with at most one non-fatal error. -/
structure ExpandResult (α : Type) where
  value : α
  err : Option ExpandError
deriving DecidableEq

/-- mbe::ValueResult: a value paired with at most one error of an
arbitrary error type. -/
structure ValueResult (α : Type) (ε : Type) where
  value : α
  err : Option ε
deriving DecidableEq

/-- syntax::SyntaxError: message plus text range. SyntaxError::new_at_offset
is modelled as an empty range at the offset. -/
structure SyntaxError where
  message : String
  range : Nat × Nat
deriving DecidableEq

/-- Syntax-token kinds relevant to the delimiter validation of macro_arg. -/
inductive SyntaxKind where
  | lparen
  | rparen
  | lbracket
  | rbracket
  | lbrace
  | rbrace
  | dot
  | ident
  | otherKind
deriving DecidableEq

/-- A TOKEN_TREE syntax node (a fn-like call's delimited argument, or an
attribute's input token tree): the kinds of its direct children in order
(for first_child_or_token / last_child_or_token), its text range, and its
lowering to a tt::Subtree. The lowering itself is the black-box
macro-by-example collaborator (mbe::syntax_node_to_token_tree), so its
result is carried as data. -/
structure TokenTreeSyn where
  childKinds : List SyntaxKind
  range : Nat × Nat
  lowered : Subtree
deriving DecidableEq

/-- ast::Attr: its simple_name(), its own input token tree (token_tree()),
and the tokens it contributes when the annotated item is lowered. -/
structure Attr where
  simple_name : Option String
  tt_arg : Option TokenTreeSyn
  lowered : List TokenTree
deriving DecidableEq

/-- One element of ast::Item's doc_comments_and_attrs() iteration:
Either<ast::Attr, ast::Comment>. A comment carries the tokens it
contributes to the lowering. -/
inductive AttrOrComment where
  | attr (a : Attr)
  | comment (lowered : List TokenTree)
deriving DecidableEq

/-- An annotated item (ast::Item, including ast::Adt): its attributes and
doc comments in syntactic order, plus the lowering of the rest of the
item. -/
structure Item where
  elems : List AttrOrComment
  body : List TokenTree
deriving DecidableEq

/-- ast::Item::attrs(): the attributes only, each paired with its position
among doc_comments_and_attrs (the position stands for the syntax node's
identity). -/
def Item.attrsWithIdx (it : Item) : List (Nat × Attr) :=
  it.elems.enum.filterMap fun p =>
    match p.2 with
    | .attr a => some (p.1, a)
    | .comment _ => none

/-- The syntax nodes this pipeline inspects: annotated items, TOKEN_TREE
nodes, attribute nodes. -/
inductive SyntaxNode where
  | item (it : Item)
  | ttNode (t : TokenTreeSyn)
  | attrNode (a : Attr)
deriving DecidableEq

/-- ast::Item::cast. -/
def SyntaxNode.castItem : SyntaxNode → Option Item
  | .item it => some it
  | _ => none

/-- ast::Attr::cast. -/
def SyntaxNode.castAttr : SyntaxNode → Option Attr
  | .attrNode a => some a
  | _ => none

/-- Lowering of an annotated item with some of its attribute/comment
children censored away (children are identified by their index among
doc_comments_and_attrs). Modelled from the spec: censoring removes the
already-consumed attribute syntax from the lowered tree. -/
def Item.lower (it : Item) (censor : List Nat) : Subtree :=
  ⟨DelimiterKind.unspecified,
    (it.elems.enum.filterMap fun p =>
      if censor.contains p.1 then none
      else some (match p.2 with
        | .attr a => a.lowered
        | .comment l => l)).flatten ++ it.body⟩

/-- mbe::syntax_node_to_token_tree_censored, the black-box lowering
collaborator, modelled from the spec. Censoring only concerns attribute
children of items. -/
def syntax_node_to_token_tree_censored : SyntaxNode → List Nat → Subtree
  | .item it, censor => it.lower censor
  | .ttNode t, _ => t.lowered
  | .attrNode a, _ => ⟨DelimiterKind.unspecified, a.lowered⟩

/-- mbe::syntax_node_to_token_tree: the uncensored lowering. -/
def syntax_node_to_token_tree (n : SyntaxNode) : Subtree :=
  syntax_node_to_token_tree_censored n []

/-- ast::MacroCall at a fn-like call site: its argument token tree (if
any) and the node's start offset. -/
structure MacroCallNode where
  token_tree : Option TokenTreeSyn
  start : Nat
deriving DecidableEq

/-- ast::Macro: a macro_rules definition or a macros-2.0 definition, with
its rule token tree / body when present. -/
inductive MacroSyn where
  | macroRules (token_tree : Option TokenTreeSyn)
  | macroDef (body : Option TokenTreeSyn)

abbrev MacroCallId := Nat
abbrev CrateId := Nat
abbrev Edition := Nat

/-- Stable AST id of a node: owning file plus per-file id
(AstId = InFile of FileAstId). -/
structure AstId where
  file_id : Nat
  value : Nat
deriving DecidableEq

/-- A built-in eager fn-like expander (EagerExpander), with its identity
question is_include() modelled from the spec (the expander table is
outside the analysed file). -/
structure EagerExpander where
  expand : Subtree → ExpandResult Subtree
  is_include : Bool

/-- A built-in attribute expander (BuiltinAttrExpander); is_derive marks
the pseudo-derive expander BuiltinAttrExpander::Derive. -/
structure AttrExpander where
  expand : Subtree → ExpandResult Subtree
  is_derive : Bool

/-- MacroDefKind: the six expander variants. Each built-in/external
expander is carried as its (black-box) expansion function. -/
inductive MacroDefKind where
  | declarative (astId : AstId)
  | builtIn (expand : Subtree → ExpandResult Subtree)
  | builtInEager (e : EagerExpander)
  | builtInAttr (e : AttrExpander)
  | builtInDerive (expand : Item → ExpandResult Subtree)
  | procMacro (expand : CrateId → CrateId → Subtree → Option Subtree → ExpandResult Subtree)

/-- matches!(kind, MacroDefKind::BuiltInEager(..)). -/
def MacroDefKind.isBuiltInEager : MacroDefKind → Bool
  | .builtInEager _ => true
  | _ => false

/-- MacroDefId: defining crate plus definition kind. -/
structure MacroDefId where
  krate : CrateId
  kind : MacroDefKind

/-- MacroDefId::is_proc_macro, modelled from the spec (declared outside
the analysed file). -/
def MacroDefId.isProcMacro (d : MacroDefId) : Bool :=
  match d.kind with
  | .procMacro _ => true
  | _ => false

/-- MacroDefId::is_include, modelled from the spec: true exactly for the
built-in eager include macro. -/
def MacroDefId.isInclude (d : MacroDefId) : Bool :=
  match d.kind with
  | .builtInEager e => e.is_include
  | _ => false

/-- MacroDefId::is_attribute_derive, modelled from the spec: the built-in
pseudo-derive attribute expander. -/
def MacroDefId.isAttributeDerive (d : MacroDefId) : Bool :=
  match d.kind with
  | .builtInAttr e => e.is_derive
  | _ => false

/-- MacroCallKind: fn-like, derive and attribute call sites, each with the
owning file and the stable AST id of its syntactic anchor. -/
inductive MacroCallKind where
  | fnLike (file_id : Nat) (ast_id : Nat)
  | derive (file_id : Nat) (ast_id : Nat) (derive_attr_index : Nat)
  | attr (file_id : Nat) (ast_id : Nat) (invoc_attr_index : Nat) (attr_args : Subtree)

/-- MacroCallKind::file_id(). -/
def MacroCallKind.fileId : MacroCallKind → Nat
  | .fnLike f _ => f
  | .derive f _ _ => f
  | .attr f _ _ _ => f

/-- EagerCallInfo: the pre-computed argument of an eager call plus the
error recorded at eager-collection time. -/
structure EagerCallInfo where
  arg : Subtree
  arg_id : Nat
  error : Option ExpandError

/-- MacroCallLoc. The source field `def` is named `defn` here (`def` is a
Lean keyword); `krate` is the calling crate. -/
structure MacroCallLoc where
  defn : MacroDefId
  krate : CrateId
  eager : Option EagerCallInfo
  kind : MacroCallKind

/-- mbe::DeclarativeMacro: the compiled matcher/transcriber, carrying a
recorded compile error when the rule set failed to parse. Expansion is the
black-box match/transcribe collaborator. -/
structure DeclarativeMacro where
  err : Option String
  expandRules : Subtree → ExpandResult Subtree

/-- mbe::DeclarativeMacro::from_err. -/
def DeclarativeMacro.fromErr (msg : String) (_is2021 : Bool) : DeclarativeMacro :=
  ⟨some msg, fun _ => ⟨Subtree.empty, none⟩⟩

/-- DeclarativeMacroExpander (db.rs lines 36-52). -/
structure DeclarativeMacroExpander where
  mac : DeclarativeMacro

/-- DeclarativeMacroExpander::expand: a recorded compile error is
re-reported as an "invalid macro definition" diagnostic with an empty
subtree; otherwise the compiled rules run. -/
def DeclarativeMacroExpander.expand (self : DeclarativeMacroExpander) (tt : Subtree) :
    ExpandResult Subtree :=
  match self.mac.err with
  | some e => ⟨Subtree.empty, some (ExpandError.other ("invalid macro definition: " ++ e))⟩
  | none => self.mac.expandRules tt

/-- ExpandTo: the syntactic category the call position expects. -/
inductive ExpandTo where
  | statements
  | items
  | pattern
  | typ
  | expr
deriving DecidableEq

/-- mbe::TopEntryPoint. -/
inductive TopEntryPoint where
  | macroStmts
  | macroItems
  | pattern
  | typ
  | expr
deriving DecidableEq

/-- The entry-point selection of token_tree_to_syntax_node
(db.rs lines 669-675). -/
def entryPointOf : ExpandTo → TopEntryPoint
  | .statements => .macroStmts
  | .items => .macroItems
  | .pattern => .pattern
  | .typ => .typ
  | .expr => .expr

/-- One entry of the reverse span map: an output text range and the input
span it originated from. -/
structure SpanMapEntry where
  range : Nat × Nat
  span : SpanData
deriving DecidableEq

/-- The expansion database: the interning table (lookup_intern_macro_call)
and the external collaborators of the interface section — source parsing
and AST-id resolution, the crate graph, the macro-by-example engine, and
the pseudo-derive attribute expander. Queries of db.rs are modelled as
plain functions over this structure. -/
structure ExpandDb where
  lookup_intern_macro_call : MacroCallId → MacroCallLoc
  /-- Resolution of a fn-like call's AstId in its file (parse plus
  ast_id.to_ptr(db).to_node(root)). -/
  macro_call_node : Nat → Nat → MacroCallNode
  /-- Resolution of a derive/attr call's annotated item in its file. -/
  item_node : Nat → Nat → Item
  /-- Resolution of an AstId of ast::Macro, for decl_macro_expander. -/
  macro_def_node : Nat → Nat → MacroSyn
  /-- parse(file).errors(). -/
  parse_errors : Nat → List SyntaxError
  /-- crate_graph()[c].edition. -/
  crate_edition : CrateId → Edition
  /-- mbe::DeclarativeMacro::parse_macro_rules(tt, is_2021). -/
  mbeParseMacroRules : Subtree → Bool → DeclarativeMacro
  /-- mbe::DeclarativeMacro::parse_macro2(tt, is_2021). -/
  mbeParseMacro2 : Subtree → Bool → DeclarativeMacro
  /-- mbe::token_tree_to_syntax_node: the black-box tree builder. It
  returns an opaque parse handle plus the reverse span map in the order
  the spans were internally collected, before db.rs sorts it. -/
  mbe_tt_to_syntax_node : Subtree → TopEntryPoint → Nat × List SpanMapEntry
  /-- ast_id_map(file).get_raw(ast_id).text_range().start(). -/
  node_start : Nat → Nat → Nat
  /-- builtin_attr_macro::pseudo_derive_attr_expansion. -/
  pseudo_derive_attr_expansion : Subtree → Subtree → ExpandResult Subtree

/-- db.rs censor_for_macro_input (lines 416-450): the child nodes of the
input that are stripped before lowering, identified by their index among
the item's doc_comments_and_attrs. A fn-like call and the pseudo-derive
attribute censor nothing; a derive call censors every attribute named
"derive" among the first derive_attr_index + 1 attributes; a plain
attribute call censors the invoking attribute itself. A node that is not
an item censors nothing (the failed cast falls back to the default). -/
def censor_for_macro_input (loc : MacroCallLoc) (node : SyntaxNode) : List Nat :=
  match loc.kind with
  | .fnLike _ _ => []
  | .derive _ _ derive_attr_index =>
    match node.castItem with
    | some it =>
      ((it.attrsWithIdx.take (derive_attr_index + 1)).filter
        (fun p => p.2.simple_name == some ("derive"))).map (fun p => p.1)
    | none => []
  | .attr _ _ invoc_attr_index _ =>
    if loc.defn.isAttributeDerive then []
    else
      match node.castItem with
      | some it =>
        match it.elems.get? invoc_attr_index with
        | some (.attr _) => [invoc_attr_index]
        | _ => []
      | none => []

/-- Whether a first/last child pair is a matched delimiter pair, from the
mismatched_delimiters closure of macro_arg (db.rs lines 305-326). -/
def wellFormedDelims (first last : SyntaxKind) : Bool :=
  match first, last with
  | .lparen, .rparen => true
  | .lbracket, .rbracket => true
  | .lbrace, .rbrace => true
  | _, _ => false

/-- The mismatched_delimiters closure of macro_arg: a missing first/last
child defaults to the `.` kind; an unmatched pair yields the "unbalanced
token tree" error on the argument's range. -/
def mismatched_delimiters (t : TokenTreeSyn) : Option (List SyntaxError) :=
  let first := t.childKinds.head?.getD SyntaxKind.dot
  let last := t.childKinds.getLast?.getD SyntaxKind.dot
  if !wellFormedDelims first last then some [⟨"unbalanced token tree", t.range⟩]
  else none

/-- db.rs macro_arg (lines 301-410). A built-in eager call whose argument
was pre-recorded returns it verbatim. Otherwise the call's node is
located; fn-like arguments are validated for matched delimiters (the
Except value models the source's early only_err returns); then the node
is lowered with the censor applied, proc-macro arguments lose their outer
delimiter, and for a built-in eager definition the file's parse errors
are attached alongside the produced tree. -/
def macro_arg (db : ExpandDb) (id : MacroCallId) :
    ValueResult (Option Subtree) (List SyntaxError) :=
  let loc := db.lookup_intern_macro_call id
  let eagerStored : Option EagerCallInfo :=
    if loc.defn.kind.isBuiltInEager then loc.eager else none
  match eagerStored with
  | some info => ⟨some info.arg, none⟩
  | none =>
    let resolved : Except (List SyntaxError) SyntaxNode :=
      match loc.kind with
      | .fnLike f a =>
        let node := db.macro_call_node f a
        match node.token_tree with
        | some t =>
          match mismatched_delimiters t with
          | some e => Except.error e
          | none => Except.ok (SyntaxNode.ttNode t)
        | none => Except.error [⟨"missing token tree", (node.start, node.start)⟩]
      | .derive f a _ => Except.ok (SyntaxNode.item (db.item_node f a))
      | .attr f a _ _ => Except.ok (SyntaxNode.item (db.item_node f a))
    match resolved with
    | .error e => ⟨none, some e⟩
    | .ok syn =>
      let censor := censor_for_macro_input loc syn
      let tt0 := syntax_node_to_token_tree_censored syn censor
      let tt := if loc.defn.isProcMacro then { tt0 with delimiter := DelimiterKind.unspecified }
                else tt0
      if loc.defn.kind.isBuiltInEager then
        match db.parse_errors loc.kind.fileId with
        | [] => ⟨some tt, none⟩
        | errors => ⟨some tt, some errors⟩
      else ⟨some tt, none⟩

/-- db.rs decl_macro_expander (lines 452-502): compiles the definition's
rule set, choosing the 2021-or-later rule-matching dialect from the
edition of the defining crate. -/
def decl_macro_expander (db : ExpandDb) (def_crate : CrateId) (id : AstId) :
    DeclarativeMacroExpander :=
  let is_2021 : Bool := decide (2021 ≤ db.crate_edition def_crate)
  let mac : DeclarativeMacro :=
    match db.macro_def_node id.file_id id.value with
    | .macroRules (some arg) => db.mbeParseMacroRules arg.lowered is_2021
    | .macroRules none => DeclarativeMacro.fromErr ("expected a token tree") is_2021
    | .macroDef (some arg) => db.mbeParseMacro2 arg.lowered is_2021
    | .macroDef none => DeclarativeMacro.fromErr ("expected a token tree") is_2021
  ⟨mac⟩

/-- static TOKEN_LIMIT: Limit = Limit::new(1_048_576). -/
def TOKEN_LIMIT : Nat := 1048576

/-- The diagnostic text of check_tt_count, naming the actual count and the
limit. -/
def tokenLimitMsg (count : Nat) : String :=
  "macro invocation exceeds token limit: produced " ++ toString count ++
    " tokens, limit is " ++ toString TOKEN_LIMIT

/-- db.rs check_tt_count (lines 690-707). Limit::check lives outside the
analysed file and is modelled from the spec: the check fails exactly when
the count exceeds the bound, and the failure value is an empty subtree
with the limit diagnostic. -/
def check_tt_count (tt : Subtree) : Except (ExpandResult Subtree) Unit :=
  let count := tt.count
  if TOKEN_LIMIT < count then
    Except.error ⟨Subtree.empty, some (ExpandError.other (tokenLimitMsg count))⟩
  else Except.ok ()

/-- The error folding of the eager short-circuit in macro_expand
(lines 585-594): every error's display is appended followed by ", ", then
the final two characters are popped. -/
def foldExpansionErrors (errs : List SyntaxError) : String :=
  (String.join (errs.map (fun e => e.message ++ (", ")))).dropRight 2

/-- The shared "if let Err(value) = check_tt_count(&tt) return value"
step of macro_expand and expand_proc_macro: a failing check replaces the
whole result, a passing one keeps the tree and error. -/
def apply_tt_limit (tt : Subtree) (err : Option ExpandError) : ExpandResult Subtree :=
  match check_tt_count tt with
  | .error v => v
  | .ok _ => ⟨tt, err⟩

/-- db.rs macro_expand lines 604-617: merge the error recorded at
eager-collection time (first error wins), then, unless the call is to the
built-in include macro, apply the token-volume check, whose failure
replaces the whole result. -/
def macro_expand_finish (loc : MacroCallLoc) (r : ExpandResult Subtree) :
    ExpandResult Subtree :=
  let err := match loc.eager with
    | some info => info.error <|> r.err
    | none => r.err
  if !loc.defn.isInclude then apply_tt_limit r.value err
  else ⟨r.value, err⟩

/-- The attr_args selection of expand_proc_macro (lines 640-643). -/
def procAttrArg : MacroCallKind → Option Subtree
  | .attr _ _ _ attr_args => some attr_args
  | _ => none

/-- db.rs expand_proc_macro (lines 620-654). A missing argument
short-circuits to an empty subtree with the "invalid token tree" error;
otherwise the external expander runs on (defining crate, calling crate,
argument, optional attribute input) and the token-volume check is applied
unconditionally. The non-proc default models the source's unreachable!().
-/
def expandProcMacro (db : ExpandDb) (id : MacroCallId) : ExpandResult Subtree :=
  let loc := db.lookup_intern_macro_call id
  match (macro_arg db id).value with
  | none => ⟨Subtree.empty, some (ExpandError.other ("invalid token tree"))⟩
  | some arg =>
    let expander := match loc.defn.kind with
      | .procMacro f => f
      | _ => fun _ _ _ _ => ⟨Subtree.empty, some (ExpandError.other ("unreachable"))⟩
    let r := expander loc.defn.krate loc.krate arg (procAttrArg loc.kind)
    apply_tt_limit r.value r.err

/-- db.rs macro_expand (lines 517-618). Proc macros delegate to
expand_proc_macro. Built-in derives resolve the annotated item, compute
the censor list — which the source binds to `_censor` and never applies —
and hand the original node to the derive expander (the non-derive default
item models the source's unreachable!()). All other kinds consume
macro_arg: an absent argument short-circuits to an empty subtree with the
"invalid token tree" error; a built-in eager call whose argument was not
eagerly pre-computed returns the raw argument with its parse errors folded
into one diagnostic, before any limit check; the remaining kinds dispatch
to their expander and pass through macro_expand_finish. -/
def macro_expand (db : ExpandDb) (id : MacroCallId) : ExpandResult Subtree :=
  let loc := db.lookup_intern_macro_call id
  match loc.defn.kind with
  | .procMacro _ => expandProcMacro db id
  | .builtInDerive expander =>
    let node := match loc.kind with
      | .derive f a _ => db.item_node f a
      | _ => ⟨[], []⟩
    let _censor := censor_for_macro_input loc (SyntaxNode.item node)
    macro_expand_finish loc (expander node)
  | _ =>
    let va := macro_arg db id
    match va.value with
    | none => ⟨Subtree.empty, some (ExpandError.other ("invalid token tree"))⟩
    | some arg =>
      match loc.defn.kind with
      | .declarative aid =>
        macro_expand_finish loc ((decl_macro_expander db loc.defn.krate aid).expand arg)
      | .builtIn f => macro_expand_finish loc (f arg)
      | .builtInEager e =>
        if loc.eager.isNone then
          ⟨arg, va.err.map (fun errs => ExpandError.other (foldExpansionErrors errs))⟩
        else macro_expand_finish loc (e.expand arg)
      | .builtInAttr e => macro_expand_finish loc (e.expand arg)
      | _ => ⟨Subtree.empty, some (ExpandError.other ("unreachable"))⟩

/-- The comparator of the span-map sort in token_tree_to_syntax_node
(lines 678-686), as the Boolean "not greater": anchor file id first, then
the anchored node's source start position from the file's AST-id map. -/
def spanEntryLe (db : ExpandDb) (a b : SpanMapEntry) : Bool :=
  decide (a.span.anchor.file_id < b.span.anchor.file_id) ||
    (decide (a.span.anchor.file_id = b.span.anchor.file_id) &&
      decide (db.node_start a.span.anchor.file_id a.span.anchor.ast_id ≤
        db.node_start b.span.anchor.file_id b.span.anchor.ast_id))

/-- The sort order on span-map entries induced by the source comparator. -/
def SpanLe (db : ExpandDb) (a b : SpanMapEntry) : Prop :=
  spanEntryLe db a b = true

instance (db : ExpandDb) : DecidableRel (SpanLe db) :=
  fun a b => inferInstanceAs (Decidable (spanEntryLe db a b = true))

/-- db.rs token_tree_to_syntax_node (lines 664-688): run the black-box
tree builder for the entry point the call position demands, then sort the
reverse span map with the source comparator. Rust's sort_by is a stable
sort, modelled by insertion sort (stable for a total preorder). -/
def token_tree_to_syntax_node (db : ExpandDb) (tt : Subtree) (expand_to : ExpandTo) :
    Nat × List SpanMapEntry :=
  let tm := db.mbe_tt_to_syntax_node tt (entryPointOf expand_to)
  (tm.1, List.insertionSort (SpanLe db) tm.2)

/-- db.rs expand_speculative (lines 148-249), modelled through the
computation of `speculative_expansion`: the censor list is computed —
bound to `_censor` and never applied, as in the source — the alternative
node is lowered uncensored, the invoking attribute's own input is
extracted for attribute calls (the Except models the `?` early returns),
and the per-kind expander is invoked directly. The declarative arm passes
loc.krate, exactly as the source does. `none` models both the `?` early
returns and the Adt-cast unwrap (a panic in the source). The final tree
round-trip and best-token pick of lines 231-248 are presentation plumbing
not touched by any claim. -/
def expand_speculative (db : ExpandDb) (actual_macro_call : MacroCallId)
    (speculative_args : SyntaxNode) : Option (ExpandResult Subtree) :=
  let loc := db.lookup_intern_macro_call actual_macro_call
  let _censor := censor_for_macro_input loc speculative_args
  let tt := syntax_node_to_token_tree speculative_args
  let attrArgStep : Except Unit (Option Subtree) :=
    match loc.kind with
    | .attr _ _ invoc_attr_index _ =>
      let foundAttr : Option Attr :=
        if loc.defn.isAttributeDerive then speculative_args.castAttr
        else
          (speculative_args.castItem).bind fun item =>
            (item.elems.get? invoc_attr_index).bind fun e =>
              match e with
              | .attr a => some a
              | .comment _ => none
      match foundAttr with
      | none => Except.error ()
      | some attr =>
        match attr.tt_arg with
        | some t => Except.ok (some { t.lowered with delimiter := DelimiterKind.unspecified })
        | none => Except.ok none
    | _ => Except.ok none
  match attrArgStep with
  | .error _ => none
  | .ok attr_arg =>
    match loc.defn.kind with
    | .procMacro f =>
      some (f loc.defn.krate loc.krate { tt with delimiter := DelimiterKind.unspecified } attr_arg)
    | .builtInAttr e =>
      if e.is_derive then
        match attr_arg with
        | some a => some (db.pseudo_derive_attr_expansion tt a)
        | none => none
      else some (e.expand tt)
    | .builtInDerive f =>
      match speculative_args.castItem with
      | some adt => some (f adt)
      | none => none
    | .declarative aid => some ((decl_macro_expander db loc.krate aid).expand tt)
    | .builtIn f => some (f tt)
    | .builtInEager e => some (e.expand tt)

/-! Concrete instances used to evaluate the pipeline at specific inputs. -/

/-- A dummy span for concretely built tokens. -/
def sp0 : SpanData := ⟨(0, 0), ⟨0, 0⟩, 0⟩

/-- A neutral base database; concrete scenarios override the relevant
fields. -/
def db0 : ExpandDb where
  lookup_intern_macro_call := fun _ =>
    ⟨⟨0, MacroDefKind.builtIn (fun s => ⟨s, none⟩)⟩, 0, none, MacroCallKind.fnLike 0 0⟩
  macro_call_node := fun _ _ => ⟨none, 0⟩
  item_node := fun _ _ => ⟨[], []⟩
  macro_def_node := fun _ _ => MacroSyn.macroRules none
  parse_errors := fun _ => []
  crate_edition := fun _ => 2015
  mbeParseMacroRules := fun _ _ => ⟨none, fun s => ⟨s, none⟩⟩
  mbeParseMacro2 := fun _ _ => ⟨none, fun s => ⟨s, none⟩⟩
  mbe_tt_to_syntax_node := fun _ _ => (0, [])
  node_start := fun _ _ => 0
  pseudo_derive_attr_expansion := fun t _ => ⟨t, none⟩

/-- Tokens of a first derive attribute on the C1 item. -/
def cloneAttrToks : List TokenTree := [TokenTree.leaf "#[derive(Clone)]" sp0]

/-- Tokens of a second derive attribute on the C1 item. -/
def debugAttrToks : List TokenTree := [TokenTree.leaf "#[derive(Debug)]" sp0]

/-- Tokens of the C1 item body. -/
def bodyToksC1 : List TokenTree :=
  [TokenTree.leaf "struct" sp0, TokenTree.leaf "S" sp0, TokenTree.leaf ";" sp0]

/-- The C1 annotated item: two derive attributes followed by the struct. -/
def itemC1 : Item :=
  ⟨[AttrOrComment.attr ⟨some "derive", none, cloneAttrToks⟩,
    AttrOrComment.attr ⟨some "derive", none, debugAttrToks⟩], bodyToksC1⟩

/-- A built-in derive expander that echoes the lowering of the item it was
handed, so the result shows exactly which tokens reached the expander. -/
def deriveEchoExpander : Item → ExpandResult Subtree :=
  fun it => ⟨syntax_node_to_token_tree (SyntaxNode.item it), none⟩

/-- The C1 call: the second derive attribute invokes a built-in derive. -/
def locC1 : MacroCallLoc :=
  ⟨⟨0, MacroDefKind.builtInDerive deriveEchoExpander⟩, 0, none, MacroCallKind.derive 0 9 1⟩

/-- Database for the C1 scenario. -/
def dbC1 : ExpandDb :=
  { db0 with
    lookup_intern_macro_call := fun _ => locC1
    item_node := fun _ _ => itemC1 }

/-- Tokens contributed by the invoking attribute of the C5 item. -/
def attrToksC5 : List TokenTree := [TokenTree.leaf "#[my_attr]" sp0]

/-- Tokens of the C5 item body. -/
def bodyToksC5 : List TokenTree := [TokenTree.leaf "fn" sp0, TokenTree.leaf "f" sp0]

/-- The C5 annotated item: one plain attribute followed by a function. -/
def itemC5 : Item := ⟨[AttrOrComment.attr ⟨some "my_attr", none, attrToksC5⟩], bodyToksC5⟩

/-- The C5 call: a built-in attribute macro (echoing its input) invoked by
the item's only attribute. -/
def locC5 : MacroCallLoc :=
  ⟨⟨0, MacroDefKind.builtInAttr ⟨fun s => ⟨s, none⟩, false⟩⟩, 0, none,
    MacroCallKind.attr 0 4 0 Subtree.empty⟩

/-- Database for the C5 scenario. -/
def dbC5 : ExpandDb :=
  { db0 with
    lookup_intern_macro_call := fun _ => locC5
    item_node := fun _ _ => itemC5 }

/-- A tree of TOKEN_LIMIT + 1 leaf tokens. -/
def bigTree : Subtree :=
  ⟨DelimiterKind.parenthesis, List.replicate (TOKEN_LIMIT + 1) (TokenTree.leaf "x" sp0)⟩

/-- The C3 call: a built-in eager macro that is not include, with no
pre-computed eager argument. -/
def locC3 : MacroCallLoc :=
  ⟨⟨0, MacroDefKind.builtInEager ⟨fun _ => ⟨Subtree.empty, none⟩, false⟩⟩, 0, none,
    MacroCallKind.fnLike 0 0⟩

/-- Database for the C3 counterexample: the fn-like argument is well
delimited and lowers to a tree that exceeds the token limit. -/
def dbC3 : ExpandDb :=
  { db0 with
    lookup_intern_macro_call := fun _ => locC3
    macro_call_node := fun _ _ =>
      ⟨some ⟨[SyntaxKind.lparen, SyntaxKind.rparen], (0, 2), bigTree⟩, 0⟩ }

/-- The C4/C10 witness call: a built-in (non-include) eager macro with no
pre-computed eager argument. -/
def locC4 : MacroCallLoc :=
  ⟨⟨0, MacroDefKind.builtInEager ⟨fun _ => ⟨Subtree.empty, none⟩, false⟩⟩, 0, none,
    MacroCallKind.fnLike 0 0⟩

/-- The small, well-delimited argument tree of the C4/C10 witness. -/
def argTreeC4 : Subtree := ⟨DelimiterKind.parenthesis, [TokenTree.leaf "x" sp0]⟩

/-- Database for the C4/C10 witness: the owning file has two parse
errors, which macro_arg attaches alongside the eager argument. -/
def dbC4 : ExpandDb :=
  { db0 with
    lookup_intern_macro_call := fun _ => locC4
    macro_call_node := fun _ _ =>
      ⟨some ⟨[SyntaxKind.lparen, SyntaxKind.rparen], (0, 2), argTreeC4⟩, 0⟩
    parse_errors := fun _ =>
      [⟨"expected expression", (1, 1)⟩, ⟨"unexpected token", (2, 2)⟩] }

/-- A declarative expander whose definition failed to compile. -/
def expanderC6 : DeclarativeMacroExpander := ⟨⟨some "oops", fun s => ⟨s, none⟩⟩⟩

/-- The unbalanced fn-like argument node of the C2 witness: it opens with
a parenthesis but ends with an identifier. -/
def ttSynW2 : TokenTreeSyn := ⟨[SyntaxKind.lparen, SyntaxKind.ident], (3, 9), Subtree.empty⟩

/-- The C2 witness call: a declarative macro called fn-like. -/
def locW2 : MacroCallLoc :=
  ⟨⟨0, MacroDefKind.declarative ⟨0, 0⟩⟩, 0, none, MacroCallKind.fnLike 0 0⟩

/-- Database for the C2 witness. -/
def dbW2 : ExpandDb :=
  { db0 with
    lookup_intern_macro_call := fun _ => locW2
    macro_call_node := fun _ _ => ⟨some ttSynW2, 3⟩ }

/-- Database for the C7 witness, part one: two crates with different
pre-2021 editions. -/
def dbC7 : ExpandDb :=
  { db0 with crate_edition := fun c => if c = 0 then 2015 else 2018 }

/-- The C7 witness call: a declarative macro called fn-like from crate 0. -/
def locC7 : MacroCallLoc :=
  ⟨⟨0, MacroDefKind.declarative ⟨0, 0⟩⟩, 0, none, MacroCallKind.fnLike 0 0⟩

/-- The small, well-delimited argument node shared by witnesses. -/
def smallArgNode : MacroCallNode :=
  ⟨some ⟨[SyntaxKind.lparen, SyntaxKind.rparen], (0, 2),
    ⟨DelimiterKind.parenthesis, [TokenTree.leaf "y" sp0]⟩⟩, 0⟩

/-- Database for the C7 witness, part two. -/
def dbC7b : ExpandDb :=
  { db0 with
    lookup_intern_macro_call := fun _ => locC7
    macro_call_node := fun _ _ => smallArgNode }

/-- The C9 witness call: a procedural macro whose collaborator returns a
tree that exceeds the token limit. -/
def locC9 : MacroCallLoc :=
  ⟨⟨0, MacroDefKind.procMacro (fun _ _ _ _ => ⟨bigTree, none⟩)⟩, 0, none,
    MacroCallKind.fnLike 0 0⟩

/-- Database for the C9 witness. -/
def dbC9 : ExpandDb :=
  { db0 with
    lookup_intern_macro_call := fun _ => locC9
    macro_call_node := fun _ _ => smallArgNode }

/-- First C8 entry: anchored to (file 5, AST id 7). -/
def e1C8 : SpanMapEntry := ⟨(0, 1), ⟨(10, 12), ⟨5, 7⟩, 0⟩⟩

/-- Second C8 entry: a different range with the same anchor, hence the
same sort key. -/
def e2C8 : SpanMapEntry := ⟨(2, 3), ⟨(20, 22), ⟨5, 7⟩, 0⟩⟩

/-- Database whose tree builder collects the two C8 spans in one order. -/
def dbC8a : ExpandDb :=
  { db0 with mbe_tt_to_syntax_node := fun _ _ => (0, [e1C8, e2C8]) }

/-- The same database except the tree builder collects the two spans in
the opposite order. -/
def dbC8b : ExpandDb :=
  { dbC8a with mbe_tt_to_syntax_node := fun _ _ => (0, [e2C8, e1C8]) }

/-- The C3 witness call: a built-in fn-like macro whose expander returns
an over-limit tree. -/
def locC3b : MacroCallLoc :=
  ⟨⟨0, MacroDefKind.builtIn (fun _ => ⟨bigTree, none⟩)⟩, 0, none, MacroCallKind.fnLike 0 0⟩

/-- Database for the C3 amended witness: a small well-delimited argument
whose expansion exceeds the token limit. -/
def dbC3b : ExpandDb :=
  { db0 with
    lookup_intern_macro_call := fun _ => locC3b
    macro_call_node := fun _ _ => smallArgNode }

/-! Helper lemmas. -/

/-- Token count of a replicated leaf list. -/
theorem countTokenTrees_replicate_leaf (n : Nat) (s : String) (sp : SpanData) :
    countTokenTrees (List.replicate n (TokenTree.leaf s sp)) = n := by
  induction n with
  | zero => rfl
  | succ k ih =>
    rw [List.replicate_succ]
    show TokenTree.count (TokenTree.leaf s sp) + _ = k + 1
    rw [ih]
    simp [TokenTree.count]
    omega

/-! Claim theorems. -/

/-- C1 (code_bug): the claim says every derive macro call hands its
expander the annotated item with all derive attributes up to and
including the invoking one stripped. For built-in derives this fails:
macro_expand computes the censor list (here both derive attributes,
indices 0 and 1) but binds it to `_censor` and discards it, handing the
expander the original item — the echoed expansion still contains both
derive attributes, while the censored lowering the claim (and
censor_for_macro_input's own documentation) demands contains neither. -/
theorem c1_builtin_derive_input_uncensored :
    censor_for_macro_input locC1 (SyntaxNode.item itemC1) = [0, 1] ∧
    macro_expand dbC1 0 =
      ⟨⟨DelimiterKind.unspecified, cloneAttrToks ++ debugAttrToks ++ bodyToksC1⟩, none⟩ ∧
    itemC1.lower (censor_for_macro_input locC1 (SyntaxNode.item itemC1)) =
      ⟨DelimiterKind.unspecified, bodyToksC1⟩ ∧
    (macro_expand dbC1 0).value ≠
      itemC1.lower (censor_for_macro_input locC1 (SyntaxNode.item itemC1)) :=
  ⟨by decide, rfl, by decide, by decide⟩

/-- C5 (code_bug): the claim says expand_speculative applies the same
censoring as the real argument-extraction pipeline to the alternative
input. It does not: it computes the censor list (here the invoking
attribute, index 0) and discards it, lowering the alternative node
uncensored, so the speculative expansion of an attribute call still
contains the invoking attribute's tokens while the real macro_arg strips
them. -/
theorem c5_speculative_censor_discarded :
    censor_for_macro_input locC5 (SyntaxNode.item itemC5) = [0] ∧
    (macro_arg dbC5 0).value = some ⟨DelimiterKind.unspecified, bodyToksC5⟩ ∧
    expand_speculative dbC5 0 (SyntaxNode.item itemC5) =
      some ⟨⟨DelimiterKind.unspecified, attrToksC5 ++ bodyToksC5⟩, none⟩ ∧
    Option.map (fun r => r.value) (expand_speculative dbC5 0 (SyntaxNode.item itemC5)) ≠
      (macro_arg dbC5 0).value :=
  ⟨rfl, rfl, rfl, by decide⟩

/-- C6: a declarative definition whose rule set failed to compile keeps
the error recorded on the expander, and every expansion attempt against
it — for any argument whatsoever — deterministically returns an empty
subtree with the same "invalid macro definition" diagnostic, as a value
rather than a query failure. -/
theorem c6_invalid_definition_permanent (ex : DeclarativeMacroExpander) (e : String)
    (herr : ex.mac.err = some e) :
    ∀ tt : Subtree, ex.expand tt =
      ⟨Subtree.empty, some (ExpandError.other ("invalid macro definition: " ++ e))⟩ := by
  intro tt
  unfold DeclarativeMacroExpander.expand
  rw [herr]

/-- C6 witness: the recorded error is re-reported identically for two
different arguments. -/
theorem c6_invalid_definition_permanent_witness :
    expanderC6.mac.err = some "oops" ∧
    expanderC6.expand ⟨DelimiterKind.parenthesis, []⟩ =
      ⟨Subtree.empty, some (ExpandError.other ("invalid macro definition: oops"))⟩ ∧
    expanderC6.expand bigTree =
      ⟨Subtree.empty, some (ExpandError.other ("invalid macro definition: oops"))⟩ :=
  ⟨rfl, c6_invalid_definition_permanent expanderC6 "oops" rfl _,
    c6_invalid_definition_permanent expanderC6 "oops" rfl _⟩

/-- C4: a call to a built-in eager macro whose eager argument was never
pre-computed (loc.eager is none) returns the raw extracted argument tree
— the eager expander's body (the function inside the builtInEager
variant) is never consulted, as the right-hand side does not mention it —
with macro_arg's accumulated parse errors folded into one diagnostic. -/
theorem c4_eager_short_circuit_returns_raw_arg (db : ExpandDb) (id : MacroCallId)
    (loc : MacroCallLoc) (e : EagerExpander) (arg : Subtree)
    (errs : Option (List SyntaxError))
    (hlook : db.lookup_intern_macro_call id = loc)
    (hdef : loc.defn.kind = MacroDefKind.builtInEager e)
    (heager : loc.eager = none)
    (harg : macro_arg db id = ⟨some arg, errs⟩) :
    macro_expand db id =
      ⟨arg, errs.map (fun es => ExpandError.other (foldExpansionErrors es))⟩ := by
  simp only [macro_expand, hlook, hdef, harg, heager, Option.isNone_none, if_true]

/-- C4 witness: a concrete built-in eager call with two parse errors on
its file returns its raw argument with the errors folded into one
diagnostic. -/
theorem c4_eager_short_circuit_returns_raw_arg_witness :
    macro_arg dbC4 0 =
      ⟨some argTreeC4,
        some [⟨"expected expression", (1, 1)⟩, ⟨"unexpected token", (2, 2)⟩]⟩ ∧
    macro_expand dbC4 0 =
      ⟨argTreeC4, some (ExpandError.other ("expected expression, unexpected token"))⟩ :=
  ⟨rfl, c4_eager_short_circuit_returns_raw_arg dbC4 0 locC4 _ argTreeC4 _ rfl rfl rfl rfl⟩

/-- C2: a function-like call whose argument's outermost delimiters are
not a matched pair makes macro_arg return no token tree with the
"unbalanced token tree" error, and macro_expand short-circuits to an
empty subtree with the "invalid token tree" error. No expander is
invoked: the conclusion holds for every definition kind (with arbitrary
expander functions inside) other than built-in derive, which ignores
macro_arg. -/
theorem c2_unbalanced_fn_like_short_circuit (db : ExpandDb) (id : MacroCallId)
    (loc : MacroCallLoc) (f a : Nat) (t : TokenTreeSyn)
    (hlook : db.lookup_intern_macro_call id = loc)
    (hkind : loc.kind = MacroCallKind.fnLike f a)
    (heager : loc.eager = none)
    (hnd : ∀ g, loc.defn.kind ≠ MacroDefKind.builtInDerive g)
    (htt : (db.macro_call_node f a).token_tree = some t)
    (hbad : wellFormedDelims (t.childKinds.head?.getD SyntaxKind.dot)
        (t.childKinds.getLast?.getD SyntaxKind.dot) = false) :
    macro_arg db id = ⟨none, some [⟨"unbalanced token tree", t.range⟩]⟩ ∧
    macro_expand db id = ⟨Subtree.empty, some (ExpandError.other ("invalid token tree"))⟩ := by
  have harg : macro_arg db id = ⟨none, some [⟨"unbalanced token tree", t.range⟩]⟩ := by
    simp only [macro_arg, hlook, hkind, heager, htt, mismatched_delimiters, hbad,
      Bool.not_false, if_true, ite_self]
  refine ⟨harg, ?_⟩
  cases hk : loc.defn.kind with
  | procMacro g =>
    simp only [macro_expand, hlook, hk, expandProcMacro, harg]
  | builtInDerive g => exact absurd hk (hnd g)
  | declarative aid => simp only [macro_expand, hlook, hk, harg]
  | builtIn g => simp only [macro_expand, hlook, hk, harg]
  | builtInEager g => simp only [macro_expand, hlook, hk, harg]
  | builtInAttr g => simp only [macro_expand, hlook, hk, harg]

/-- C2 witness: a concrete fn-like call whose argument opens with `(` but
ends with an identifier. -/
theorem c2_unbalanced_fn_like_short_circuit_witness :
    macro_arg dbW2 0 = ⟨none, some [⟨"unbalanced token tree", (3, 9)⟩]⟩ ∧
    macro_expand dbW2 0 = ⟨Subtree.empty, some (ExpandError.other ("invalid token tree"))⟩ :=
  c2_unbalanced_fn_like_short_circuit dbW2 0 locW2 0 0 ttSynW2 rfl rfl rfl
    (fun _ h => MacroDefKind.noConfusion h) rfl rfl

/-- The limit step either keeps a tree within the limit or replaces an
over-limit tree by the empty subtree with the limit diagnostic. -/
theorem apply_tt_limit_bounded (tt : Subtree) (err : Option ExpandError) :
    (apply_tt_limit tt err).value.count ≤ TOKEN_LIMIT ∨
      ∃ n, TOKEN_LIMIT < n ∧
        apply_tt_limit tt err = ⟨Subtree.empty, some (ExpandError.other (tokenLimitMsg n))⟩ := by
  unfold apply_tt_limit check_tt_count
  by_cases hc : TOKEN_LIMIT < tt.count
  · rw [if_pos hc]
    exact Or.inr ⟨tt.count, hc, rfl⟩
  · rw [if_neg hc]
    exact Or.inl (Nat.le_of_not_lt hc)

/-- An over-limit tree is always replaced by the failure value. -/
theorem apply_tt_limit_over (tt : Subtree) (err : Option ExpandError)
    (h : TOKEN_LIMIT < tt.count) :
    apply_tt_limit tt err = ⟨Subtree.empty, some (ExpandError.other (tokenLimitMsg tt.count))⟩ := by
  unfold apply_tt_limit check_tt_count
  rw [if_pos h]

/-- macro_expand_finish on a non-include definition replaces an
over-limit expander result by the failure value, whatever error the
eager merge produced. -/
theorem macro_expand_finish_over (loc : MacroCallLoc) (r : ExpandResult Subtree)
    (hinc : loc.defn.isInclude = false) (h : TOKEN_LIMIT < r.value.count) :
    macro_expand_finish loc r =
      ⟨Subtree.empty, some (ExpandError.other (tokenLimitMsg r.value.count))⟩ := by
  unfold macro_expand_finish
  rw [hinc]
  exact apply_tt_limit_over _ _ h

/-- macro_expand_finish on a non-include definition is bounded. -/
theorem macro_expand_finish_bounded (loc : MacroCallLoc) (r : ExpandResult Subtree)
    (h : loc.defn.isInclude = false) :
    (macro_expand_finish loc r).value.count ≤ TOKEN_LIMIT ∨
      ∃ n, TOKEN_LIMIT < n ∧
        macro_expand_finish loc r = ⟨Subtree.empty, some (ExpandError.other (tokenLimitMsg n))⟩ := by
  unfold macro_expand_finish
  rw [h]
  exact apply_tt_limit_bounded r.value _

/-- expand_proc_macro is bounded unconditionally. -/
theorem expandProcMacro_bounded (db : ExpandDb) (id : MacroCallId) :
    (expandProcMacro db id).value.count ≤ TOKEN_LIMIT ∨
      ∃ n, TOKEN_LIMIT < n ∧
        expandProcMacro db id = ⟨Subtree.empty, some (ExpandError.other (tokenLimitMsg n))⟩ := by
  unfold expandProcMacro
  cases hv : (macro_arg db id).value with
  | none => exact Or.inl (by show Subtree.empty.count ≤ TOKEN_LIMIT; decide)
  | some arg => exact apply_tt_limit_bounded _ _

/-- The token count of bigTree. -/
theorem bigTree_count : bigTree.count = TOKEN_LIMIT + 1 := by
  unfold bigTree Subtree.count
  exact countTokenTrees_replicate_leaf _ _ _

/-- C3 counterexample: a call to a built-in eager macro that is not
include, whose eager argument was never pre-computed, returns its raw
argument through macro_expand with no limit check at all — the returned
tree exceeds the ceiling and no diagnostic is produced, contradicting the
claim that every over-limit non-include expansion is discarded and
replaced by an empty subtree with a limit diagnostic. -/
theorem c3_eager_raw_arg_escapes_token_limit :
    (dbC3.lookup_intern_macro_call 0).defn.isInclude = false ∧
    (dbC3.lookup_intern_macro_call 0).eager = none ∧
    TOKEN_LIMIT < (macro_expand dbC3 0).value.count ∧
    (macro_expand dbC3 0).err = none := by
  refine ⟨rfl, rfl, ?_, rfl⟩
  have h : (macro_expand dbC3 0).value = bigTree := rfl
  rw [h, bigTree_count]
  omega

/-- C3 (amended): for every call whose definition is not the built-in
include macro and which is not a built-in eager call with no pre-computed
eager argument (those return the raw argument before the check, as the
counterexample shows), an over-limit produced tree is discarded and
replaced by the empty subtree carrying the diagnostic that names the
actual count and the limit. The first six conjuncts state this as a
conditional equality for each definition kind on the checked paths —
declarative, built-in fn-like, built-in eager with a pre-computed
argument, built-in attribute, built-in derive, and procedural — and the
final conjunct states that no call in the amended scope ever returns an
over-limit tree without that diagnostic. -/
theorem c3_token_limit_enforced_amended :
    (∀ (db : ExpandDb) (id : MacroCallId) (loc : MacroCallLoc) (aid : AstId) (arg : Subtree),
      db.lookup_intern_macro_call id = loc →
      loc.defn.kind = MacroDefKind.declarative aid →
      (macro_arg db id).value = some arg →
      TOKEN_LIMIT < ((decl_macro_expander db loc.defn.krate aid).expand arg).value.count →
      macro_expand db id = ⟨Subtree.empty, some (ExpandError.other (tokenLimitMsg
        ((decl_macro_expander db loc.defn.krate aid).expand arg).value.count))⟩) ∧
    (∀ (db : ExpandDb) (id : MacroCallId) (loc : MacroCallLoc)
      (f : Subtree → ExpandResult Subtree) (arg : Subtree),
      db.lookup_intern_macro_call id = loc →
      loc.defn.kind = MacroDefKind.builtIn f →
      (macro_arg db id).value = some arg →
      TOKEN_LIMIT < (f arg).value.count →
      macro_expand db id =
        ⟨Subtree.empty, some (ExpandError.other (tokenLimitMsg (f arg).value.count))⟩) ∧
    (∀ (db : ExpandDb) (id : MacroCallId) (loc : MacroCallLoc) (e : EagerExpander)
      (info : EagerCallInfo) (arg : Subtree),
      db.lookup_intern_macro_call id = loc →
      loc.defn.kind = MacroDefKind.builtInEager e →
      loc.eager = some info →
      e.is_include = false →
      (macro_arg db id).value = some arg →
      TOKEN_LIMIT < (e.expand arg).value.count →
      macro_expand db id =
        ⟨Subtree.empty, some (ExpandError.other (tokenLimitMsg (e.expand arg).value.count))⟩) ∧
    (∀ (db : ExpandDb) (id : MacroCallId) (loc : MacroCallLoc) (e : AttrExpander)
      (arg : Subtree),
      db.lookup_intern_macro_call id = loc →
      loc.defn.kind = MacroDefKind.builtInAttr e →
      (macro_arg db id).value = some arg →
      TOKEN_LIMIT < (e.expand arg).value.count →
      macro_expand db id =
        ⟨Subtree.empty, some (ExpandError.other (tokenLimitMsg (e.expand arg).value.count))⟩) ∧
    (∀ (db : ExpandDb) (id : MacroCallId) (loc : MacroCallLoc)
      (g : Item → ExpandResult Subtree) (f a i : Nat),
      db.lookup_intern_macro_call id = loc →
      loc.defn.kind = MacroDefKind.builtInDerive g →
      loc.kind = MacroCallKind.derive f a i →
      TOKEN_LIMIT < (g (db.item_node f a)).value.count →
      macro_expand db id =
        ⟨Subtree.empty, some (ExpandError.other (tokenLimitMsg
          (g (db.item_node f a)).value.count))⟩) ∧
    (∀ (db : ExpandDb) (id : MacroCallId) (loc : MacroCallLoc)
      (f : CrateId → CrateId → Subtree → Option Subtree → ExpandResult Subtree)
      (arg : Subtree),
      db.lookup_intern_macro_call id = loc →
      loc.defn.kind = MacroDefKind.procMacro f →
      (macro_arg db id).value = some arg →
      TOKEN_LIMIT < (f loc.defn.krate loc.krate arg (procAttrArg loc.kind)).value.count →
      macro_expand db id = ⟨Subtree.empty, some (ExpandError.other (tokenLimitMsg
        (f loc.defn.krate loc.krate arg (procAttrArg loc.kind)).value.count))⟩) ∧
    (∀ (db : ExpandDb) (id : MacroCallId),
      (db.lookup_intern_macro_call id).defn.isInclude = false →
      (∀ e, (db.lookup_intern_macro_call id).defn.kind = MacroDefKind.builtInEager e →
        (db.lookup_intern_macro_call id).eager ≠ none) →
      (macro_expand db id).value.count ≤ TOKEN_LIMIT ∨
        ∃ n, TOKEN_LIMIT < n ∧
          macro_expand db id = ⟨Subtree.empty, some (ExpandError.other (tokenLimitMsg n))⟩) := by
  refine ⟨?_, ?_, ?_, ?_, ?_, ?_, ?_⟩
  · intro db id loc aid arg hlook hkind harg hover
    have hinc : loc.defn.isInclude = false := by
      simp only [MacroDefId.isInclude, hkind]
    simp only [macro_expand, hlook, hkind, harg]
    exact macro_expand_finish_over loc _ hinc hover
  · intro db id loc f arg hlook hkind harg hover
    have hinc : loc.defn.isInclude = false := by
      simp only [MacroDefId.isInclude, hkind]
    simp only [macro_expand, hlook, hkind, harg]
    exact macro_expand_finish_over loc _ hinc hover
  · intro db id loc e info arg hlook hkind heag hni harg hover
    have hinc : loc.defn.isInclude = false := by
      simp only [MacroDefId.isInclude, hkind]
      exact hni
    simp only [macro_expand, hlook, hkind, harg, heag, Option.isNone_some,
      Bool.false_eq_true, if_false]
    exact macro_expand_finish_over loc _ hinc hover
  · intro db id loc e arg hlook hkind harg hover
    have hinc : loc.defn.isInclude = false := by
      simp only [MacroDefId.isInclude, hkind]
    simp only [macro_expand, hlook, hkind, harg]
    exact macro_expand_finish_over loc _ hinc hover
  · intro db id loc g f a i hlook hkind hckind hover
    have hinc : loc.defn.isInclude = false := by
      simp only [MacroDefId.isInclude, hkind]
    simp only [macro_expand, hlook, hkind, hckind]
    exact macro_expand_finish_over loc _ hinc hover
  · intro db id loc f arg hlook hkind harg hover
    simp only [macro_expand, hlook, hkind]
    simp only [expandProcMacro, hlook, harg, hkind]
    exact apply_tt_limit_over _ _ hover
  · intro db id hinc heag
    cases hk : (db.lookup_intern_macro_call id).defn.kind with
    | procMacro g =>
      simp only [macro_expand, hk]
      exact expandProcMacro_bounded db id
    | builtInDerive g =>
      simp only [macro_expand, hk]
      exact macro_expand_finish_bounded _ _ hinc
    | declarative aid =>
      simp only [macro_expand, hk]
      cases hv : (macro_arg db id).value with
      | none => exact Or.inl (by show Subtree.empty.count ≤ TOKEN_LIMIT; decide)
      | some arg => exact macro_expand_finish_bounded _ _ hinc
    | builtIn g =>
      simp only [macro_expand, hk]
      cases hv : (macro_arg db id).value with
      | none => exact Or.inl (by show Subtree.empty.count ≤ TOKEN_LIMIT; decide)
      | some arg => exact macro_expand_finish_bounded _ _ hinc
    | builtInAttr g =>
      simp only [macro_expand, hk]
      cases hv : (macro_arg db id).value with
      | none => exact Or.inl (by show Subtree.empty.count ≤ TOKEN_LIMIT; decide)
      | some arg => exact macro_expand_finish_bounded _ _ hinc
    | builtInEager g =>
      simp only [macro_expand, hk]
      cases hv : (macro_arg db id).value with
      | none => exact Or.inl (by show Subtree.empty.count ≤ TOKEN_LIMIT; decide)
      | some arg =>
        cases he : (db.lookup_intern_macro_call id).eager with
        | none => exact absurd he (heag g hk)
        | some info =>
          simp only [he, Option.isNone_some, Bool.false_eq_true, if_false]
          exact macro_expand_finish_bounded _ _ hinc

/-- C3 amended witness: a built-in fn-like expander returning an
over-limit tree is discarded and replaced by the empty subtree with the
diagnostic naming the actual count, and a small expansion stays within
the limit. -/
theorem c3_token_limit_enforced_amended_witness :
    TOKEN_LIMIT < bigTree.count ∧
    macro_expand dbC3b 0 =
      ⟨Subtree.empty, some (ExpandError.other (tokenLimitMsg bigTree.count))⟩ ∧
    ((macro_expand dbW2 0).value.count ≤ TOKEN_LIMIT ∨
      ∃ n, TOKEN_LIMIT < n ∧
        macro_expand dbW2 0 = ⟨Subtree.empty, some (ExpandError.other (tokenLimitMsg n))⟩) := by
  have hover : TOKEN_LIMIT < bigTree.count := by rw [bigTree_count]; omega
  refine ⟨hover, ?_, ?_⟩
  · exact c3_token_limit_enforced_amended.2.1 dbC3b 0 locC3b (fun _ => ⟨bigTree, none⟩)
      ⟨DelimiterKind.parenthesis, [TokenTree.leaf "y" sp0]⟩ rfl rfl rfl hover
  · exact c3_token_limit_enforced_amended.2.2.2.2.2.2 dbW2 0 rfl
      (fun _ h => MacroDefKind.noConfusion h)

/-- C9: expand_proc_macro applies the token-count ceiling with no
include-style exemption — no hypothesis about the definition being
include is needed: whenever the collaborator's returned tree exceeds the
limit, the result is the empty subtree with the limit diagnostic, and
macro_expand forwards that result unchanged for proc-macro calls. -/
theorem c9_proc_macro_token_limit (db : ExpandDb) (id : MacroCallId) (loc : MacroCallLoc)
    (f : CrateId → CrateId → Subtree → Option Subtree → ExpandResult Subtree) (arg : Subtree)
    (hlook : db.lookup_intern_macro_call id = loc)
    (hdef : loc.defn.kind = MacroDefKind.procMacro f)
    (harg : (macro_arg db id).value = some arg)
    (hover : TOKEN_LIMIT <
      (f loc.defn.krate loc.krate arg (procAttrArg loc.kind)).value.count) :
    expandProcMacro db id =
      ⟨Subtree.empty, some (ExpandError.other (tokenLimitMsg
        (f loc.defn.krate loc.krate arg (procAttrArg loc.kind)).value.count))⟩ ∧
    macro_expand db id = expandProcMacro db id := by
  constructor
  · simp only [expandProcMacro, hlook, harg, hdef]
    exact apply_tt_limit_over _ _ hover
  · simp only [macro_expand, hlook, hdef]

/-- C9 witness: a proc-macro collaborator returning an over-limit tree is
replaced by the empty subtree with the limit diagnostic. -/
theorem c9_proc_macro_token_limit_witness :
    TOKEN_LIMIT < bigTree.count ∧
    expandProcMacro dbC9 0 =
      ⟨Subtree.empty, some (ExpandError.other (tokenLimitMsg bigTree.count))⟩ ∧
    macro_expand dbC9 0 = expandProcMacro dbC9 0 := by
  have hover : TOKEN_LIMIT < bigTree.count := by rw [bigTree_count]; omega
  have h := c9_proc_macro_token_limit dbC9 0 locC9
    (fun _ _ _ _ => ⟨bigTree, none⟩) (⟨DelimiterKind.unspecified,
      [TokenTree.leaf "y" sp0]⟩) rfl rfl rfl hover
  exact ⟨hover, h.1, h.2⟩

/-- macro_arg does not use the calling crate recorded in the location:
replacing the interning table's entry for the call by one that differs
only in the krate field leaves the extracted argument unchanged. -/
theorem macro_arg_caller_crate_irrelevant (db : ExpandDb)
    (l' : MacroCallId → MacroCallLoc) (id : MacroCallId) (loc : MacroCallLoc) (k' : CrateId)
    (hl : db.lookup_intern_macro_call id = loc)
    (hl' : l' id = { loc with krate := k' }) :
    macro_arg { db with lookup_intern_macro_call := l' } id = macro_arg db id := by
  unfold macro_arg
  dsimp only
  rw [hl', hl]
  rfl

/-- C7: the rule-matching dialect of a declarative macro is chosen by the
edition of the defining crate passed to decl_macro_expander — two
defining crates on the same side of the 2021 boundary compile to the same
expander — and never by the calling crate: macro_expand passes
loc.def.krate, so replacing a declarative call's recorded calling crate
by any other crate leaves the expansion unchanged. -/
theorem c7_dialect_from_defining_crate_edition :
    (∀ (db : ExpandDb) (c c' : CrateId) (aid : AstId),
      decide (2021 ≤ db.crate_edition c) = decide (2021 ≤ db.crate_edition c') →
      decl_macro_expander db c aid = decl_macro_expander db c' aid) ∧
    (∀ (db : ExpandDb) (l' : MacroCallId → MacroCallLoc) (id : MacroCallId)
      (loc : MacroCallLoc) (aid : AstId) (k' : CrateId),
      db.lookup_intern_macro_call id = loc →
      l' id = { loc with krate := k' } →
      loc.defn.kind = MacroDefKind.declarative aid →
      macro_expand { db with lookup_intern_macro_call := l' } id = macro_expand db id) := by
  constructor
  · intro db c c' aid h
    unfold decl_macro_expander
    rw [h]
  · intro db l' id loc aid k' hl hl' hdecl
    have hm := macro_arg_caller_crate_irrelevant db l' id loc k' hl hl'
    unfold macro_expand
    dsimp only
    rw [hl', hl, hm, hdecl]
    rfl

/-- C7 witness: part one applied to two pre-2021 crates, part two applied
to a concrete declarative call whose calling crate is replaced. -/
theorem c7_dialect_from_defining_crate_edition_witness :
    decl_macro_expander dbC7 0 ⟨0, 0⟩ = decl_macro_expander dbC7 1 ⟨0, 0⟩ ∧
    macro_expand { dbC7b with lookup_intern_macro_call := fun _ => { locC7 with krate := 5 } } 0 =
      macro_expand dbC7b 0 :=
  ⟨c7_dialect_from_defining_crate_edition.1 dbC7 0 1 ⟨0, 0⟩ rfl,
    c7_dialect_from_defining_crate_edition.2 dbC7b (fun _ => { locC7 with krate := 5 }) 0
      locC7 ⟨0, 0⟩ 5 rfl rfl rfl⟩

/-- For a non-eager definition, macro_arg never pairs an error with a
produced tree. -/
theorem macro_arg_value_err (db : ExpandDb) (id : MacroCallId)
    (hne : (db.lookup_intern_macro_call id).defn.kind.isBuiltInEager = false) :
    (macro_arg db id).err = none ∨ (macro_arg db id).value = none := by
  unfold macro_arg
  simp only [hne, Bool.false_eq_true, if_false]
  cases hkind : (db.lookup_intern_macro_call id).kind with
  | fnLike f a =>
    dsimp only
    cases htt : (db.macro_call_node f a).token_tree with
    | none => exact Or.inr rfl
    | some t =>
      dsimp only
      cases hm : mismatched_delimiters t with
      | none => exact Or.inl rfl
      | some e => exact Or.inr rfl
  | derive f a i => exact Or.inl rfl
  | attr f a i args => exact Or.inl rfl

/-- C10: macro_arg attaches errors alongside a successfully produced
token tree only for built-in eager definitions — whenever it returns both
a tree and a non-empty error, the call's definition is a built-in eager
macro; equivalently, for every other kind a produced tree comes with an
empty error component and a non-empty error only accompanies an absent
value. -/
theorem c10_macro_arg_errors_only_eager (db : ExpandDb) (id : MacroCallId)
    (hv : (macro_arg db id).value.isSome = true)
    (he : (macro_arg db id).err ≠ none) :
    (db.lookup_intern_macro_call id).defn.kind.isBuiltInEager = true := by
  by_contra hb
  rw [Bool.not_eq_true] at hb
  rcases macro_arg_value_err db id hb with h | h
  · exact he h
  · rw [h] at hv
    exact Bool.noConfusion hv

/-- C10 witness: a built-in eager call whose file has parse errors
returns a tree together with errors, and its definition is indeed
built-in eager. -/
theorem c10_macro_arg_errors_only_eager_witness :
    (macro_arg dbC4 0).value.isSome = true ∧ (macro_arg dbC4 0).err ≠ none ∧
    (dbC4.lookup_intern_macro_call 0).defn.kind.isBuiltInEager = true :=
  ⟨rfl, by decide, c10_macro_arg_errors_only_eager dbC4 0 rfl (by decide)⟩

/-- The Boolean comparator unfolded to its arithmetic meaning. -/
theorem spanLe_iff (db : ExpandDb) (a b : SpanMapEntry) :
    SpanLe db a b ↔
      (a.span.anchor.file_id < b.span.anchor.file_id ∨
        (a.span.anchor.file_id = b.span.anchor.file_id ∧
          db.node_start a.span.anchor.file_id a.span.anchor.ast_id ≤
            db.node_start b.span.anchor.file_id b.span.anchor.ast_id)) := by
  unfold SpanLe spanEntryLe
  simp [Bool.or_eq_true, Bool.and_eq_true, decide_eq_true_eq]

/-- C8 (amended): the reverse span map produced by
token_tree_to_syntax_node is sorted by (anchor file id, anchored node's
source start position) and is a permutation of the map the tree builder
collected; since the sort is stable, entries with equal keys keep their
collection order, so the output is deterministic only up to ties in the
key. -/
theorem c8_span_map_sorted_amended (db : ExpandDb) (tt : Subtree) (et : ExpandTo) :
    List.Sorted (SpanLe db) (token_tree_to_syntax_node db tt et).2 ∧
    (token_tree_to_syntax_node db tt et).2.Perm
      (db.mbe_tt_to_syntax_node tt (entryPointOf et)).2 := by
  haveI : IsTotal SpanMapEntry (SpanLe db) :=
    ⟨fun a b => by rw [spanLe_iff, spanLe_iff]; omega⟩
  haveI : IsTrans SpanMapEntry (SpanLe db) :=
    ⟨fun a b c hab hbc => by
      rw [spanLe_iff] at hab hbc ⊢
      omega⟩
  unfold token_tree_to_syntax_node
  exact ⟨List.sorted_insertionSort _ _, List.perm_insertionSort _ _⟩

/-- C8 counterexample: two distinct entries share a sort key (same anchor,
different ranges). The stable sort keeps their collection order, so the
same span multiset collected in two different orders yields two different
reverse span maps — the order is not independent of how the spans were
collected, contrary to the claim. -/
theorem c8_span_map_order_depends_on_collection :
    e1C8 ≠ e2C8 ∧
    e1C8.span.anchor = e2C8.span.anchor ∧
    [e1C8, e2C8].Perm [e2C8, e1C8] ∧
    (token_tree_to_syntax_node dbC8a Subtree.empty ExpandTo.expr).2 = [e1C8, e2C8] ∧
    (token_tree_to_syntax_node dbC8b Subtree.empty ExpandTo.expr).2 = [e2C8, e1C8] ∧
    (token_tree_to_syntax_node dbC8a Subtree.empty ExpandTo.expr).2 ≠
      (token_tree_to_syntax_node dbC8b Subtree.empty ExpandTo.expr).2 :=
  ⟨by decide, by decide, by decide, by decide, by decide, by decide⟩

end HirExpand
